import Mathlib

/-!
Shallow embedding of the simulation core of `src/main.rs` (the game
"Systems Critical"), together with theorems checking the natural-language
specification against it.

Modelling conventions:
* `f32` values are embedded as rationals (`ℚ`); machine rounding is not
  modelled.  The three transcendental / irrational primitives the source
  uses (`f32::sin`, `f32::cos`, `f32::sqrt`) are passed explicitly as a
  record of functions `MathFns`; theorems that depend on their metric
  meaning take pointwise exactness hypotheses (`SqrtOK`, a unit-circle
  hypothesis), which are satisfiable at rational points (Pythagorean data).
* `rand::random::<f32>()` (a uniform draw in `[0,1)`) is modelled by an
  explicit stream `rng : ℕ → ℚ`; each call site consumes successive
  indices of the stream.
* The `quicksilver` framework state (`Assets`, `Window`) and all
  rendering / sound side effects are dropped: sound playing is
  fire-and-forget and does not influence the simulation state.
-/

set_option linter.unusedVariables false

namespace SystemsCritical

/-- 2D vector over ℚ, embedding `quicksilver::geom::Vector` (a pair of f32). -/
structure Vec2 where
  x : ℚ
  y : ℚ
deriving DecidableEq

instance : Add Vec2 := ⟨fun a b => ⟨a.x + b.x, a.y + b.y⟩⟩

instance : Sub Vec2 := ⟨fun a b => ⟨a.x - b.x, a.y - b.y⟩⟩

instance : HMul Vec2 ℚ Vec2 := ⟨fun a s => ⟨a.x * s, a.y * s⟩⟩

instance : HDiv Vec2 ℚ Vec2 := ⟨fun a s => ⟨a.x / s, a.y / s⟩⟩

/-- The zero vector, embedding `Vector2::ZERO`. -/
def Vec2.zero : Vec2 := ⟨0, 0⟩

/-- Squared Euclidean length, embedding `geom::Vector::len2`. -/
def Vec2.len2 (v : Vec2) : ℚ := v.x * v.x + v.y * v.y

/-- The f32 irrational primitives used by the source (`sin`, `cos`,
`sqrt`), abstracted as explicit rational functions. -/
structure MathFns where
  sinf : ℚ → ℚ
  cosf : ℚ → ℚ
  sqrtf : ℚ → ℚ

/-- `M.sqrtf` computes the exact (nonnegative) square root at the point `x`. -/
def SqrtOK (M : MathFns) (x : ℚ) : Prop :=
  0 ≤ M.sqrtf x ∧ M.sqrtf x * M.sqrtf x = x

/-- Euclidean length, embedding `geom::Vector::len` (`sqrt` of `len2`). -/
def Vec2.len (M : MathFns) (v : Vec2) : ℚ := M.sqrtf v.len2

/-- Rational stand-in for `std::f32::consts::PI`.  Angles only ever feed
`sinf`/`cosf`, so no claim depends on this value. -/
def pi : ℚ := 3.14159274

/-- Embeds `vec_from_angle`: unit vector for the given angle,
`(sin angle, cos angle)`. -/
def vec_from_angle (M : MathFns) (angle : ℚ) : Vec2 :=
  ⟨M.sinf angle, M.cosf angle⟩

/-- Embeds `random_vec`: random vector with the given max magnitude; the
two `rand::random` draws are passed as `u1`, `u2`. -/
def random_vec (M : MathFns) (u1 u2 : ℚ) (max_magnitude : ℚ) : Vec2 :=
  let angle := u1 * 2 * pi
  let mag := u2 * max_magnitude
  vec_from_angle M angle * mag

inductive ActorType where
  | Player
  | Rock
  | Shot
  | Radar
  | Wormhole
deriving DecidableEq

inductive Systems where
  | Engines
  | Wepons
  | Radar
deriving DecidableEq

/-- Embeds the `Actor` struct.  `life` is overloaded exactly as in the
source: time-to-live for shots and radar, hit points for the rest. -/
structure Actor where
  tag : ActorType
  sys : Systems
  pos : Vec2
  facing : ℚ
  velocity : Vec2
  ang_vel : ℚ
  bbox_size : ℚ
  layer : ℤ
  life : ℚ
deriving DecidableEq

def PLAYER_LIFE : ℚ := 1.0
def SHOT_LIFE : ℚ := 2.0
def RADAR_LIFE : ℚ := 3.0
def ROCK_LIFE : ℚ := 1.0

def PLAYER_BBOX : ℚ := 12.0
def ROCK_BBOX : ℚ := 12.0
def WORMHOLE_BBOX : ℚ := 16.0
def SHOT_BBOX : ℚ := 6.0

def MAX_ROCK_VEL : ℚ := 50.0
def MAX_WORMHOLE_VEL : ℚ := 25.0

def SHOT_SPEED : ℚ := 200.0
def SHOT_ANG_VEL : ℚ := 0.1

def PLAYER_THRUST : ℚ := 100
def PLAYER_TURN_RATE : ℚ := 3.0
def PLAYER_SHOT_TIME : ℚ := 0.5
def PLAYER_RADAR_TIME : ℚ := 0.4

def create_player : Actor :=
  { tag := ActorType.Player
    sys := Systems.Radar
    pos := Vec2.zero
    facing := 0
    velocity := Vec2.zero
    ang_vel := 0
    bbox_size := PLAYER_BBOX
    layer := 500
    life := PLAYER_LIFE }

def create_wormhole : Actor :=
  { tag := ActorType.Wormhole
    sys := Systems.Radar
    pos := Vec2.zero
    facing := 0
    velocity := Vec2.zero
    ang_vel := 0
    bbox_size := WORMHOLE_BBOX
    layer := 495
    life := PLAYER_LIFE }

def create_rock : Actor :=
  { tag := ActorType.Rock
    sys := Systems.Radar
    pos := Vec2.zero
    facing := 0
    velocity := Vec2.zero
    ang_vel := 0
    bbox_size := ROCK_BBOX
    layer := 500
    life := ROCK_LIFE }

def create_shot : Actor :=
  { tag := ActorType.Shot
    sys := Systems.Radar
    pos := Vec2.zero
    facing := 0
    velocity := Vec2.zero
    ang_vel := SHOT_ANG_VEL
    bbox_size := SHOT_BBOX
    layer := 500
    life := SHOT_LIFE }

def create_radar (layer : ℤ) : Actor :=
  { tag := ActorType.Radar
    pos := Vec2.zero
    sys := Systems.Radar
    facing := 0
    velocity := Vec2.zero
    ang_vel := SHOT_ANG_VEL
    bbox_size := SHOT_BBOX
    layer := layer
    life := RADAR_LIFE }

/-- Embeds `create_rocks`.  The source asserts `max_radius > min_radius`
(a fatal programming-error check); the embedding is total and theorems
that need the precondition carry it as a hypothesis.  Rock `i` consumes
the four `rand::random` draws `rng (4*i) .. rng (4*i+3)` (angle,
distance, then the two draws of `random_vec`). -/
def create_rocks (M : MathFns) (rng : ℕ → ℚ) (num : ℤ) (exclusion : Vec2)
    (min_radius max_radius : ℚ) : List Actor :=
  (List.range num.toNat).map fun i =>
    let rock := create_rock
    let r_angle := rng (4 * i) * 2 * pi
    let r_distance := rng (4 * i + 1) * (max_radius - min_radius) + min_radius
    { rock with
      pos := exclusion + vec_from_angle M r_angle * r_distance
      velocity := random_vec M (rng (4 * i + 2)) (rng (4 * i + 3)) MAX_ROCK_VEL }

/-- Embeds `create_wormholes` (same shape as `create_rocks`). -/
def create_wormholes (M : MathFns) (rng : ℕ → ℚ) (num : ℤ) (exclusion : Vec2)
    (min_radius max_radius : ℚ) : List Actor :=
  (List.range num.toNat).map fun i =>
    let wormhole := create_wormhole
    let r_angle := rng (4 * i) * 2 * pi
    let r_distance := rng (4 * i + 1) * (max_radius - min_radius) + min_radius
    { wormhole with
      pos := exclusion + vec_from_angle M r_angle * r_distance
      velocity := random_vec M (rng (4 * i + 2)) (rng (4 * i + 3)) MAX_WORMHOLE_VEL }

/-- Embeds the `InputState` struct. -/
structure InputState where
  xaxis : ℚ
  yaxis : ℚ
  fire : Bool
  radar : Bool
deriving DecidableEq

/-- Embeds `InputState::default()`. -/
def InputState.default : InputState :=
  { xaxis := 0, yaxis := 0, fire := false, radar := false }

/-- Embeds `player_thrust`. -/
def player_thrust (M : MathFns) (actor : Actor) (dt : ℚ) : Actor :=
  let direction_vector := vec_from_angle M actor.facing
  let thrust_vector := direction_vector * PLAYER_THRUST
  { actor with velocity := actor.velocity + thrust_vector * dt }

/-- Embeds `player_handle_input`. -/
def player_handle_input (M : MathFns) (actor : Actor) (input : InputState)
    (dt : ℚ) : Actor :=
  let actor := { actor with facing := actor.facing + dt * PLAYER_TURN_RATE * input.xaxis }
  if input.yaxis > 0 then player_thrust M actor dt else actor

def MAX_PHYSICS_VEL : ℚ := 200.0

/-- Embeds `update_actor_position`: clamp the velocity to
`MAX_PHYSICS_VEL` when its squared norm exceeds `MAX_PHYSICS_VEL ^ 2`,
then advance the position by `velocity * dt` and the facing by `ang_vel`
(not scaled by `dt`). -/
def update_actor_position (M : MathFns) (actor : Actor) (dt : ℚ) : Actor :=
  let norm_sq := actor.velocity.len2
  let vel :=
    if norm_sq > MAX_PHYSICS_VEL ^ 2 then
      actor.velocity / M.sqrtf norm_sq * MAX_PHYSICS_VEL
    else actor.velocity
  let dv := vel * dt
  { actor with
    velocity := vel
    pos := actor.pos + dv
    facing := actor.facing + actor.ang_vel }

/-- Embeds `wrap_actor_position`: at most one wrap correction per axis. -/
def wrap_actor_position (actor : Actor) (sx sy : ℚ) : Actor :=
  let screen_x_bounds := sx / 2
  let screen_y_bounds := sy / 2
  let px :=
    if actor.pos.x > screen_x_bounds then actor.pos.x - sx
    else if actor.pos.x < -screen_x_bounds then actor.pos.x + sx
    else actor.pos.x
  let py :=
    if actor.pos.y > screen_y_bounds then actor.pos.y - sy
    else if actor.pos.y < -screen_y_bounds then actor.pos.y + sy
    else actor.pos.y
  { actor with pos := ⟨px, py⟩ }

/-- Embeds `handle_timed_life`: `life -= dt`. -/
def handle_timed_life (actor : Actor) (dt : ℚ) : Actor :=
  { actor with life := actor.life - dt }

/-- Embeds the simulation-relevant fields of `MainState` (`assets` is
rendering/sound plumbing and is dropped). -/
structure MainState where
  player : Actor
  shots : List Actor
  radar : List Actor
  rocks : List Actor
  wormhole : List Actor
  level : ℤ
  score : ℤ
  screen_width : ℚ
  screen_height : ℚ
  input : InputState
  player_shot_timeout : ℚ
  player_radar_timeout : ℚ
  radar_layer : ℤ
deriving DecidableEq

/-- Embeds `MainState::new` (window size 800×600; 5 rocks then 1 wormhole
spawned in the band [100, 250) around the player).  The rock spawns
consume `rng 0 .. rng 19`, the wormhole spawn `rng 20 .. rng 23`. -/
def MainState.new (M : MathFns) (rng : ℕ → ℚ) : MainState :=
  let player := create_player
  let rocks := create_rocks M rng 5 player.pos 100 250
  let wormhole := create_wormholes M (fun n => rng (20 + n)) 1 player.pos 100 250
  { player := player
    shots := []
    radar := []
    rocks := rocks
    wormhole := wormhole
    level := 0
    score := 0
    screen_width := 800
    screen_height := 600
    input := InputState.default
    player_shot_timeout := 0
    player_radar_timeout := 0
    radar_layer := 0 }

/-- Embeds `MainState::reset` (same spawns and rng consumption pattern as
`MainState.new`; screen dimensions are untouched). -/
def MainState.reset (M : MathFns) (rng : ℕ → ℚ) (s : MainState) : MainState :=
  let player := create_player
  { s with
    player := player
    shots := []
    radar := []
    rocks := create_rocks M rng 5 player.pos 100 250
    wormhole := create_wormholes M (fun n => rng (20 + n)) 1 player.pos 100 250
    level := 0
    score := 0
    input := InputState.default
    player_shot_timeout := 0
    player_radar_timeout := 0
    radar_layer := 0 }

/-- Embeds `MainState::fire_player_shot` (sound side effect dropped). -/
def MainState.fire_player_shot (M : MathFns) (s : MainState) : MainState :=
  let s := { s with player_shot_timeout := PLAYER_SHOT_TIME }
  let shot := create_shot
  let shot := { shot with pos := s.player.pos, facing := s.player.facing }
  let direction := vec_from_angle M shot.facing
  let shot := { shot with velocity := ⟨SHOT_SPEED * direction.x, SHOT_SPEED * direction.y⟩ }
  { s with shots := s.shots ++ [shot] }

/-- Embeds `MainState::fire_player_radar` (sound side effect dropped). -/
def MainState.fire_player_radar (s : MainState) : MainState :=
  let s := { s with player_radar_timeout := PLAYER_RADAR_TIME }
  let radar := create_radar s.radar_layer
  let radar := { radar with pos := s.player.pos }
  let s := { s with radar_layer := s.radar_layer + 2 }
  { s with radar := s.radar ++ [radar] }

/-- Embeds `MainState::clear_dead_stuff`. -/
def MainState.clear_dead_stuff (s : MainState) : MainState :=
  let shots := s.shots.filter fun a => a.life > 0
  let rocks := s.rocks.filter fun a => a.life > 0
  let radar := s.radar.filter fun a => a.life > 0
  let wormhole := s.wormhole.filter fun a => a.life > 0
  let radar_layer := if radar.length = 0 then 0 else s.radar_layer
  { s with
    shots := shots
    rocks := rocks
    radar := radar
    wormhole := wormhole
    radar_layer := radar_layer }

/-- Embeds the inner `for shot in &mut self.shots` loop of
`handle_collisions` for one rock: returns the updated shots list, the
updated rock, and the updated score. -/
def collide_shots (M : MathFns) (shots : List Actor) (rock : Actor)
    (score : ℤ) : List Actor × Actor × ℤ :=
  match shots with
  | [] => ([], rock, score)
  | shot :: rest =>
    let distance := shot.pos - rock.pos
    if Vec2.len M distance < shot.bbox_size + rock.bbox_size then
      let r := collide_shots M rest { rock with life := 0 } (score + 1)
      ({ shot with life := 0 } :: r.1, r.2.1, r.2.2)
    else
      let r := collide_shots M rest rock score
      (shot :: r.1, r.2.1, r.2.2)

/-- Embeds the outer `for rock in &mut self.rocks` loop of
`handle_collisions`: player-proximity check then the shot loop, per rock,
threading the player, the shots and the score exactly as the in-place
mutation does.  Returns (player, rocks, shots, score). -/
def collide_rocks (M : MathFns) (player : Actor) (rocks shots : List Actor)
    (score : ℤ) : Actor × List Actor × List Actor × ℤ :=
  match rocks with
  | [] => (player, [], shots, score)
  | rock :: rest =>
    let pdistance := rock.pos - player.pos
    let player :=
      if Vec2.len M pdistance < player.bbox_size + rock.bbox_size then
        { player with life := 0 }
      else player
    let inner := collide_shots M shots rock score
    let outer := collide_rocks M player rest inner.1 inner.2.2
    (outer.1, inner.2.1 :: outer.2.1, outer.2.2.1, outer.2.2.2)

/-- Embeds the `for wormhole in &mut self.wormhole` loop of
`handle_collisions`. -/
def collide_wormholes (M : MathFns) (player : Actor) (wormhole : List Actor) :
    List Actor :=
  wormhole.map fun w =>
    let pdistance := w.pos - player.pos
    if Vec2.len M pdistance < player.bbox_size + w.bbox_size then
      { w with life := 0 }
    else w

/-- Embeds `MainState::handle_collisions` (hit sound dropped). -/
def MainState.handle_collisions (M : MathFns) (s : MainState) : MainState :=
  let r := collide_rocks M s.player s.rocks s.shots s.score
  { s with
    player := r.1
    rocks := r.2.1
    shots := r.2.2.1
    score := r.2.2.2
    wormhole := collide_wormholes M r.1 s.wormhole }

/-- Embeds `MainState::check_for_level_end`.  The wormhole spawn consumes
`rng 0 .. rng 3`, the rock spawns the stream from index 4 on. -/
def MainState.check_for_level_end (M : MathFns) (rng : ℕ → ℚ) (s : MainState) :
    MainState :=
  if s.wormhole.isEmpty then
    let score := s.score + 10
    let level := s.level + 1
    { s with
      score := score
      level := level
      wormhole := create_wormholes M rng 1 s.player.pos 100 250
      rocks := create_rocks M (fun n => rng (4 + n)) (level * 2 + 5) s.player.pos 100 250 }
  else s

/-- The fixed timestep: `1.0 / DESIRED_FPS` with `DESIRED_FPS = 60`. -/
def seconds : ℚ := 1 / 60

/-- Embeds the input/firing phase of `State::update` for `MainState`
(source lines 536-544): apply input to the player, decrement both
cooldown timers unconditionally, fire a shot / a radar pulse when the
button is held and the decremented timer is strictly negative. -/
def MainState.step_input (M : MathFns) (s : MainState) : MainState :=
  let s := { s with player := player_handle_input M s.player s.input seconds }
  let s := { s with player_shot_timeout := s.player_shot_timeout - seconds }
  let s := if s.input.fire ∧ s.player_shot_timeout < 0 then MainState.fire_player_shot M s else s
  let s := { s with player_radar_timeout := s.player_radar_timeout - seconds }
  let s := if s.input.radar ∧ s.player_radar_timeout < 0 then MainState.fire_player_radar s else s
  s

/-- Embeds the physics/decay phase of `State::update` (source lines
546-571): integrate + wrap the player; integrate + wrap + decay each
shot; decay each radar pulse; integrate + wrap each rock.  The wormhole
collection is not touched. -/
def MainState.step_physics (M : MathFns) (s : MainState) : MainState :=
  let player := wrap_actor_position (update_actor_position M s.player seconds)
      s.screen_width s.screen_height
  let shots := s.shots.map fun act =>
    handle_timed_life
      (wrap_actor_position (update_actor_position M act seconds)
        s.screen_width s.screen_height) seconds
  let radar := s.radar.map fun act => handle_timed_life act seconds
  let rocks := s.rocks.map fun act =>
    wrap_actor_position (update_actor_position M act seconds)
      s.screen_width s.screen_height
  { s with player := player, shots := shots, radar := radar, rocks := rocks }

/-- Embeds one full `State::update` frame: input/firing, physics,
collisions, pruning, level-end check, death check + reset.  `rngL` is the
random stream consumed by a level-end respawn, `rngR` the one consumed by
a death reset (successive segments of the process-global RNG). -/
def MainState.update (M : MathFns) (rngL rngR : ℕ → ℚ) (s : MainState) :
    MainState :=
  let s := MainState.step_input M s
  let s := MainState.step_physics M s
  let s := MainState.handle_collisions M s
  let s := MainState.clear_dead_stuff s
  let s := MainState.check_for_level_end M rngL s
  if s.player.life ≤ 0 then MainState.reset M rngR s else s

/-! ### Basic lemmas about the vector operations -/

@[simp] lemma Vec2.add_x (a b : Vec2) : (a + b).x = a.x + b.x := rfl

@[simp] lemma Vec2.add_y (a b : Vec2) : (a + b).y = a.y + b.y := rfl

@[simp] lemma Vec2.sub_x (a b : Vec2) : (a - b).x = a.x - b.x := rfl

@[simp] lemma Vec2.sub_y (a b : Vec2) : (a - b).y = a.y - b.y := rfl

@[simp] lemma Vec2.smul_x (a : Vec2) (s : ℚ) : (a * s).x = a.x * s := rfl

@[simp] lemma Vec2.smul_y (a : Vec2) (s : ℚ) : (a * s).y = a.y * s := rfl

@[simp] lemma Vec2.sdiv_x (a : Vec2) (s : ℚ) : (a / s).x = a.x / s := rfl

@[simp] lemma Vec2.sdiv_y (a : Vec2) (s : ℚ) : (a / s).y = a.y / s := rfl

/-! ### C5 and C10: the physics integrator -/

/-- Unfolding of `update_actor_position` with the `let` chain reduced. -/
lemma update_actor_position_eq (M : MathFns) (a : Actor) (dt : ℚ) :
    update_actor_position M a dt =
      { a with
        velocity :=
          if a.velocity.len2 > MAX_PHYSICS_VEL ^ 2 then
            a.velocity / M.sqrtf a.velocity.len2 * MAX_PHYSICS_VEL
          else a.velocity
        pos := a.pos +
          (if a.velocity.len2 > MAX_PHYSICS_VEL ^ 2 then
            a.velocity / M.sqrtf a.velocity.len2 * MAX_PHYSICS_VEL
          else a.velocity) * dt
        facing := a.facing + a.ang_vel } := rfl

/-- C5: `update_actor_position` first clamps the velocity — if the squared
speed exceeds `200.0 ^ 2` the velocity is rescaled to magnitude exactly
`200.0` (squared length exactly `200.0 ^ 2`), and if the speed is at most
`200.0` the velocity is unchanged — then adds `velocity * dt` to the
position, and adds `ang_vel` to the facing exactly once per call, not
scaled by `dt`. -/
theorem integrate_spec (M : MathFns) (a : Actor) (dt : ℚ) :
    (a.velocity.len2 ≤ MAX_PHYSICS_VEL ^ 2 →
      (update_actor_position M a dt).velocity = a.velocity)
    ∧ (SqrtOK M a.velocity.len2 → MAX_PHYSICS_VEL ^ 2 < a.velocity.len2 →
      (update_actor_position M a dt).velocity.len2 = MAX_PHYSICS_VEL ^ 2)
    ∧ (update_actor_position M a dt).pos
        = a.pos + (update_actor_position M a dt).velocity * dt
    ∧ (update_actor_position M a dt).facing = a.facing + a.ang_vel := by
  rw [update_actor_position_eq]
  refine ⟨fun hle => ?_, fun hsq hgt => ?_, rfl, rfl⟩
  · show (if a.velocity.len2 > MAX_PHYSICS_VEL ^ 2 then
        a.velocity / M.sqrtf a.velocity.len2 * MAX_PHYSICS_VEL
      else a.velocity) = a.velocity
    rw [if_neg (not_lt.mpr hle)]
  · obtain ⟨hq0, hqsq⟩ := hsq
    set q := M.sqrtf a.velocity.len2 with hqd
    have hpos : (0 : ℚ) < a.velocity.len2 := by
      have h40 : (0 : ℚ) < MAX_PHYSICS_VEL ^ 2 := by norm_num [MAX_PHYSICS_VEL]
      linarith
    have hq : q ≠ 0 := by
      intro h0
      rw [h0, mul_zero] at hqsq
      linarith
    have hlen : a.velocity.x * a.velocity.x + a.velocity.y * a.velocity.y = q * q := by
      rw [hqsq]; rfl
    rw [if_pos hgt]
    simp only [Vec2.len2, Vec2.smul_x, Vec2.smul_y, Vec2.sdiv_x, Vec2.sdiv_y]
    field_simp
    linear_combination MAX_PHYSICS_VEL ^ 2 * hlen

/-- C10: the division by the velocity norm in `update_actor_position`
occurs only in the branch where the squared norm strictly exceeds
`200.0 ^ 2`; there the divisor is strictly positive (so the clamp never
divides by zero), and outside that branch the velocity is returned
unchanged (no division happens).  The embedded integration step is a
total function by construction. -/
theorem clamp_no_div_by_zero (M : MathFns) (a : Actor) (dt : ℚ) :
    (SqrtOK M a.velocity.len2 → MAX_PHYSICS_VEL ^ 2 < a.velocity.len2 →
      0 < M.sqrtf a.velocity.len2)
    ∧ (¬ MAX_PHYSICS_VEL ^ 2 < a.velocity.len2 →
      (update_actor_position M a dt).velocity = a.velocity) := by
  constructor
  · rintro ⟨hq0, hqsq⟩ h
    rcases lt_or_eq_of_le hq0 with h' | h'
    · exact h'
    · exfalso
      rw [← h', mul_zero] at hqsq
      have h40 : (0 : ℚ) < MAX_PHYSICS_VEL ^ 2 := by norm_num [MAX_PHYSICS_VEL]
      linarith
  · intro h
    rw [update_actor_position_eq]
    simp only [if_neg h]

/-- Closed witness for `clamp_no_div_by_zero`: a concrete actor moving at
speed 500 (squared norm 250000), with a square-root function exact at
that point. -/
def fast_actor : Actor := { create_rock with velocity := ⟨300, 400⟩ }

/-- Table-driven rational square root used by concrete witnesses. -/
def sqrt_table : ℚ → ℚ := fun x =>
  if x = 25 then 5 else if x = 250000 then 500 else if x = 90000 then 300 else 0

/-- Concrete instance of the irrational primitives used by witnesses:
`sin`/`cos` are the constant rational point (3/5, 4/5) on the unit
circle, `sqrt` is `sqrt_table`. -/
def M0 : MathFns := ⟨fun _ => 3 / 5, fun _ => 4 / 5, sqrt_table⟩

theorem integrate_spec_witness :
    (SqrtOK M0 fast_actor.velocity.len2
      ∧ MAX_PHYSICS_VEL ^ 2 < fast_actor.velocity.len2)
    ∧ (update_actor_position M0 fast_actor 1).velocity.len2 = MAX_PHYSICS_VEL ^ 2 :=
  ⟨⟨by norm_num [SqrtOK, M0, sqrt_table, fast_actor, create_rock, Vec2.len2],
      by norm_num [fast_actor, create_rock, Vec2.len2, MAX_PHYSICS_VEL]⟩,
    (integrate_spec M0 fast_actor 1).2.1
      (by norm_num [SqrtOK, M0, sqrt_table, fast_actor, create_rock, Vec2.len2])
      (by norm_num [fast_actor, create_rock, Vec2.len2, MAX_PHYSICS_VEL])⟩

theorem clamp_no_div_by_zero_witness :
    (SqrtOK M0 fast_actor.velocity.len2
      ∧ MAX_PHYSICS_VEL ^ 2 < fast_actor.velocity.len2)
    ∧ 0 < M0.sqrtf fast_actor.velocity.len2 :=
  ⟨⟨by norm_num [SqrtOK, M0, sqrt_table, fast_actor, create_rock, Vec2.len2],
      by norm_num [fast_actor, create_rock, Vec2.len2, MAX_PHYSICS_VEL]⟩,
    (clamp_no_div_by_zero M0 fast_actor 1).1
      (by norm_num [SqrtOK, M0, sqrt_table, fast_actor, create_rock, Vec2.len2])
      (by norm_num [fast_actor, create_rock, Vec2.len2, MAX_PHYSICS_VEL])⟩

/-! ### C6: position wraparound -/

/-- C6: one `wrap_actor_position` call applies at most one correction per
axis — subtract `sx` when `pos.x` strictly exceeds `sx/2`, add `sx` when
it is strictly below `-sx/2`, same for `y` with `sy`; an in-bounds actor
is unaffected; an actor at `x = sx/2 + ε` ends at `x = -sx/2 + ε`; and a
position more than one field-width out of bounds stays out of bounds (no
looping). -/
theorem wrap_position_spec (a : Actor) (sx sy : ℚ) :
    ((wrap_actor_position a sx sy).pos.x =
        if a.pos.x > sx / 2 then a.pos.x - sx
        else if a.pos.x < -(sx / 2) then a.pos.x + sx
        else a.pos.x)
    ∧ ((wrap_actor_position a sx sy).pos.y =
        if a.pos.y > sy / 2 then a.pos.y - sy
        else if a.pos.y < -(sy / 2) then a.pos.y + sy
        else a.pos.y)
    ∧ ((wrap_actor_position a sx sy).velocity = a.velocity
        ∧ (wrap_actor_position a sx sy).facing = a.facing
        ∧ (wrap_actor_position a sx sy).life = a.life)
    ∧ (|a.pos.x| ≤ sx / 2 → |a.pos.y| ≤ sy / 2 → wrap_actor_position a sx sy = a)
    ∧ (∀ ε : ℚ, 0 < ε → a.pos.x = sx / 2 + ε →
        (wrap_actor_position a sx sy).pos.x = -(sx / 2) + ε)
    ∧ (0 < sx → sx / 2 + sx < a.pos.x → sx / 2 < (wrap_actor_position a sx sy).pos.x) := by
  refine ⟨rfl, rfl, ⟨rfl, rfl, rfl⟩, ?_, ?_, ?_⟩
  · intro hx hy
    rw [abs_le] at hx hy
    unfold wrap_actor_position
    have h1 : ¬ a.pos.x > sx / 2 := not_lt.mpr hx.2
    have h2 : ¬ a.pos.x < -(sx / 2) := not_lt.mpr hx.1
    have h3 : ¬ a.pos.y > sy / 2 := not_lt.mpr hy.2
    have h4 : ¬ a.pos.y < -(sy / 2) := not_lt.mpr hy.1
    simp only [h1, h2, h3, h4, if_false]
  · intro ε hε hx
    unfold wrap_actor_position
    have h1 : a.pos.x > sx / 2 := by rw [hx]; linarith
    simp only [h1, if_true]
    rw [hx]; ring
  · intro hsx hx
    unfold wrap_actor_position
    have h1 : a.pos.x > sx / 2 := by linarith
    simp only [h1, if_true]
    linarith

/-- Closed witness for `wrap_position_spec`: the in-bounds and the
`x = sx/2 + ε` cases at concrete values. -/
def centered_actor : Actor := create_player

def right_edge_actor : Actor := { create_player with pos := ⟨401, 0⟩ }

theorem wrap_position_spec_witness :
    (wrap_actor_position centered_actor 800 600 = centered_actor)
    ∧ (wrap_actor_position right_edge_actor 800 600).pos.x = -(800 / 2) + 1 :=
  ⟨(wrap_position_spec centered_actor 800 600).2.2.2.1
      (by norm_num [centered_actor, create_player, Vec2.zero])
      (by norm_num [centered_actor, create_player, Vec2.zero]),
    (wrap_position_spec right_edge_actor 800 600).2.2.2.2.1 1 (by norm_num)
      (by norm_num [right_edge_actor, create_player])⟩

/-! ### C2 and C7: the collision resolver -/

/-- The shot/rock proximity test made inside `handle_collisions`
(`distance.len() < shot.bbox_size + rock.bbox_size`), as a Bool. -/
def shot_hits (M : MathFns) (shot rock : Actor) : Bool :=
  decide (Vec2.len M (shot.pos - rock.pos) < shot.bbox_size + rock.bbox_size)

/-- The player/other proximity test made inside `handle_collisions`
(`pdistance.len() < player.bbox_size + other.bbox_size`), as a Bool. -/
def player_hits (M : MathFns) (player other : Actor) : Bool :=
  decide (Vec2.len M (other.pos - player.pos) < player.bbox_size + other.bbox_size)

/-- Number of colliding (rock, shot) pairs. -/
def pair_count (M : MathFns) (rocks shots : List Actor) : ℕ :=
  (rocks.map fun r => shots.countP fun sh => shot_hits M sh r).sum

lemma shot_hits_zero_rock (M : MathFns) (sh rock : Actor) :
    shot_hits M sh { rock with life := 0 } = shot_hits M sh rock := rfl

lemma shot_hits_zero_shot (M : MathFns) (sh rock : Actor) :
    shot_hits M { sh with life := 0 } rock = shot_hits M sh rock := rfl

lemma shot_hits_ite_left (M : MathFns) (c : Prop) [Decidable c] (sh rock : Actor) :
    shot_hits M (if c then { sh with life := 0 } else sh) rock = shot_hits M sh rock := by
  split <;> rfl

lemma player_hits_ite (M : MathFns) (c : Prop) [Decidable c] (p r : Actor) :
    player_hits M (if c then { p with life := 0 } else p) r = player_hits M p r := by
  split <;> rfl

lemma life_zero_idem (a : Actor) :
    ({ ({ a with life := 0 } : Actor) with life := 0 } : Actor) = { a with life := 0 } := rfl

/-- Functional characterisation of the inner shot loop: every shot within
range of the rock is killed, the rock is killed when any shot is in
range, and the score gains one per in-range shot. -/
lemma collide_shots_spec (M : MathFns) :
    ∀ (shots : List Actor) (rock : Actor) (score : ℤ),
      collide_shots M shots rock score =
        (shots.map fun sh => if shot_hits M sh rock then { sh with life := 0 } else sh,
         (if shots.any fun sh => shot_hits M sh rock then { rock with life := 0 } else rock),
         score + (shots.countP fun sh => shot_hits M sh rock : ℤ)) := by
  intro shots
  induction shots with
  | nil => intro rock score; simp [collide_shots]
  | cons shot rest ih =>
    intro rock score
    by_cases h : Vec2.len M (shot.pos - rock.pos) < shot.bbox_size + rock.bbox_size
    · have hb : shot_hits M shot rock = true := by
        simp [shot_hits, h]
      simp only [collide_shots, if_pos h, ih, shot_hits_zero_rock, life_zero_idem,
        List.map_cons, List.any_cons, List.countP_cons, hb, Bool.true_or, if_true,
        ite_self, Prod.mk.injEq]
      refine ⟨trivial, trivial, ?_⟩
      push_cast
      ring
    · have hb : shot_hits M shot rock = false := by
        simp [shot_hits, h]
      simp only [collide_shots, if_neg h, ih, List.map_cons, List.any_cons,
        List.countP_cons, hb, Bool.false_or, if_false, Bool.false_eq_true, add_zero,
        Prod.mk.injEq]

/-- In-range tests ignore the tested shots' life, so mapping a
life-zeroing over the shot list does not change which shots are in range
of a rock. -/
lemma any_shot_hits_map (M : MathFns) (rock r : Actor) (shots : List Actor) :
    ((shots.map fun sh => if shot_hits M sh rock then { sh with life := 0 } else sh).any
        fun sh => shot_hits M sh r)
    = shots.any fun sh => shot_hits M sh r := by
  induction shots with
  | nil => rfl
  | cons a l ih =>
    simp only [List.map_cons, List.any_cons, ih, shot_hits_ite_left]

/-- Same invariance for the per-rock in-range shot count. -/
lemma countP_shot_hits_map (M : MathFns) (rock r : Actor) (shots : List Actor) :
    ((shots.map fun sh => if shot_hits M sh rock then { sh with life := 0 } else sh).countP
        fun sh => shot_hits M sh r)
    = shots.countP fun sh => shot_hits M sh r := by
  induction shots with
  | nil => rfl
  | cons a l ih =>
    simp only [List.map_cons, List.countP_cons, ih, shot_hits_ite_left]

/-- Two successive life-zeroing passes over the shot list compose to a
single pass keyed on the disjunction of the range tests. -/
lemma shots_two_pass (M : MathFns) (rock : Actor) (rest shots : List Actor) :
    ((shots.map fun sh => if shot_hits M sh rock then { sh with life := 0 } else sh).map
        fun sh => if rest.any fun r => shot_hits M sh r then { sh with life := 0 } else sh)
    = shots.map fun sh =>
        if (rock :: rest).any fun r => shot_hits M sh r then { sh with life := 0 } else sh := by
  rw [List.map_map]
  apply List.map_congr_left
  intro sh _
  simp only [Function.comp_apply, List.any_cons]
  by_cases h1 : shot_hits M sh rock
  · simp only [h1, if_true, Bool.true_or, if_pos rfl]
    simp only [shot_hits_zero_shot, life_zero_idem, ite_self]
  · simp only [h1, Bool.false_or, if_false, Bool.false_eq_true, ite_false]

lemma pair_count_cons (M : MathFns) (rock : Actor) (rest shots : List Actor) :
    pair_count M (rock :: rest) shots
    = (shots.countP fun sh => shot_hits M sh rock) + pair_count M rest shots := by
  simp [pair_count, List.map_cons, List.sum_cons]

lemma pair_count_map (M : MathFns) (rock : Actor) (rest shots : List Actor) :
    pair_count M rest
      (shots.map fun sh => if shot_hits M sh rock then { sh with life := 0 } else sh)
    = pair_count M rest shots := by
  simp only [pair_count, countP_shot_hits_map]

/-- Functional characterisation of the full rock loop of
`handle_collisions`, threading player, shots and score exactly as the
in-place mutation does. -/
lemma collide_rocks_spec (M : MathFns) :
    ∀ (rocks shots : List Actor) (player : Actor) (score : ℤ),
      collide_rocks M player rocks shots score =
        ((if rocks.any fun r => player_hits M player r then { player with life := 0 }
          else player),
         rocks.map fun r =>
           if shots.any fun sh => shot_hits M sh r then { r with life := 0 } else r,
         shots.map fun sh =>
           if rocks.any fun r => shot_hits M sh r then { sh with life := 0 } else sh,
         score + (pair_count M rocks shots : ℤ)) := by
  intro rocks
  induction rocks with
  | nil =>
    intro shots player score
    simp [collide_rocks, pair_count]
  | cons rock rest ih =>
    intro shots player score
    simp only [collide_rocks, collide_shots_spec, ih, List.map_cons, List.any_cons,
      Prod.mk.injEq]
    by_cases hp : Vec2.len M (rock.pos - player.pos) < player.bbox_size + rock.bbox_size
    · have hpb : player_hits M player rock = true := by
        simp [player_hits, hp]
      simp only [if_pos hp, hpb, Bool.true_or, if_pos rfl, player_hits_ite,
        life_zero_idem, ite_self, any_shot_hits_map, shots_two_pass, pair_count_map,
        pair_count_cons, List.any_cons]
      refine ⟨(if_pos trivial).symm, trivial, trivial, ?_⟩
      push_cast
      ring
    · have hpb : player_hits M player rock = false := by
        simp [player_hits, hp]
      simp only [if_neg hp, hpb, Bool.false_or, player_hits_ite,
        any_shot_hits_map, shots_two_pass, pair_count_map, pair_count_cons, List.any_cons]
      refine ⟨trivial, trivial, trivial, ?_⟩
      push_cast
      ring

lemma collide_wormholes_ite (M : MathFns) (c : Prop) [Decidable c] (p : Actor)
    (ws : List Actor) :
    collide_wormholes M (if c then { p with life := 0 } else p) ws
    = collide_wormholes M p ws := by
  split <;> rfl

/-- The wormhole loop of `handle_collisions` as a map keyed on the
player-proximity test. -/
lemma collide_wormholes_spec (M : MathFns) (p : Actor) (ws : List Actor) :
    collide_wormholes M p ws
    = ws.map fun w => if player_hits M p w then { w with life := 0 } else w := by
  unfold collide_wormholes
  apply List.map_congr_left
  intro w _
  by_cases h : Vec2.len M (w.pos - p.pos) < p.bbox_size + w.bbox_size
  · simp [player_hits, h]
  · simp [player_hits, h]

/-- C2: the per-frame collision resolver, run over the pre-prune
collections: the player's life becomes 0 exactly when some rock is in
range of the player; each rock's/shot's life becomes 0 exactly when some
shot/rock is in range of it; the score increases by exactly one per
colliding (rock, shot) pair; each wormhole's life becomes 0 exactly when
it is in range of the player (no score change); and the range test is a
strict comparison of the Euclidean distance against the summed radii, so
a distance exactly equal to the summed radii never counts. -/
theorem handle_collisions_spec (M : MathFns) (s : MainState) :
    ((MainState.handle_collisions M s).player =
        if s.rocks.any fun r => player_hits M s.player r then { s.player with life := 0 }
        else s.player)
    ∧ ((MainState.handle_collisions M s).rocks =
        s.rocks.map fun r =>
          if s.shots.any fun sh => shot_hits M sh r then { r with life := 0 } else r)
    ∧ ((MainState.handle_collisions M s).shots =
        s.shots.map fun sh =>
          if s.rocks.any fun r => shot_hits M sh r then { sh with life := 0 } else sh)
    ∧ ((MainState.handle_collisions M s).score
        = s.score + (pair_count M s.rocks s.shots : ℤ))
    ∧ ((MainState.handle_collisions M s).wormhole =
        s.wormhole.map fun w =>
          if player_hits M s.player w then { w with life := 0 } else w)
    ∧ (∀ d2 r : ℚ, SqrtOK M d2 → 0 ≤ r → (M.sqrtf d2 < r ↔ d2 < r * r)) := by
  refine ⟨?_, ?_, ?_, ?_, ?_, ?_⟩
  · simp only [MainState.handle_collisions, collide_rocks_spec]
  · simp only [MainState.handle_collisions, collide_rocks_spec]
  · simp only [MainState.handle_collisions, collide_rocks_spec]
  · simp only [MainState.handle_collisions, collide_rocks_spec]
  · simp only [MainState.handle_collisions, collide_rocks_spec, collide_wormholes_spec,
      player_hits_ite]
  · rintro d2 r ⟨hq0, hqsq⟩ hr
    constructor
    · intro hlt
      nlinarith
    · intro hlt
      nlinarith [mul_self_nonneg (M.sqrtf d2 - r)]

/-- State-construction helper for the concrete witnesses below (800×600
window, empty input, zero timers). -/
def mk_state (player : Actor) (shots radar rocks wormhole : List Actor) : MainState :=
  { player := player
    shots := shots
    radar := radar
    rocks := rocks
    wormhole := wormhole
    level := 0
    score := 0
    screen_width := 800
    screen_height := 600
    input := InputState.default
    player_shot_timeout := 0
    player_radar_timeout := 0
    radar_layer := 0 }

/-- A rock at distance 5 from the origin (a 3-4-5 triple, so `sqrt_table`
is exact on the squared distance 25). -/
def rock_close : Actor := { create_rock with pos := ⟨3, 4⟩ }

def c2state : MainState := mk_state create_player [] [] [rock_close] []

theorem handle_collisions_spec_witness :
    (SqrtOK M0 25 ∧ (0 : ℚ) ≤ 24 ∧ (M0.sqrtf 25 < 24 ↔ (25 : ℚ) < 24 * 24))
    ∧ (MainState.handle_collisions M0 c2state).player =
        (if c2state.rocks.any fun r => player_hits M0 c2state.player r then
          { c2state.player with life := 0 }
        else c2state.player) :=
  ⟨⟨by norm_num [SqrtOK, M0, sqrt_table], by norm_num,
      (handle_collisions_spec M0 c2state).2.2.2.2.2 25 24
        (by norm_num [SqrtOK, M0, sqrt_table]) (by norm_num)⟩,
    (handle_collisions_spec M0 c2state).1⟩

/-- C7: in the physics/decay phase of a frame no wormhole is modified at
all (its spawn velocity is never integrated and its life never decays);
the input phase leaves the wormhole collection unchanged as well, pruning
only filters dead wormholes without modifying survivors, and the only
in-frame modification of a wormhole is the player-proximity collision
rule. -/
theorem wormhole_static_frame (M : MathFns) (s : MainState) :
    ((MainState.step_input M s).wormhole = s.wormhole)
    ∧ ((MainState.step_physics M s).wormhole = s.wormhole)
    ∧ ((MainState.clear_dead_stuff s).wormhole = s.wormhole.filter fun a => a.life > 0)
    ∧ ((MainState.handle_collisions M s).wormhole =
        s.wormhole.map fun w =>
          if player_hits M s.player w then { w with life := 0 } else w) := by
  refine ⟨?_, rfl, rfl, ?_⟩
  · simp only [MainState.step_input, MainState.fire_player_shot, MainState.fire_player_radar]
    split_ifs <;> rfl
  · simp only [MainState.handle_collisions, collide_rocks_spec, collide_wormholes_spec,
      player_hits_ite]



/-- Characterisation of the firing phase as it affects the shot cooldown,
the shot count and the input (which it never modifies). -/
lemma step_input_fire_spec (M : MathFns) (s : MainState) :
    (MainState.step_input M s).input = s.input
    ∧ (MainState.step_input M s).player_shot_timeout =
        (if s.input.fire ∧ s.player_shot_timeout - seconds < 0 then PLAYER_SHOT_TIME
         else s.player_shot_timeout - seconds)
    ∧ (MainState.step_input M s).shots.length =
        s.shots.length + (if s.input.fire ∧ s.player_shot_timeout - seconds < 0 then 1 else 0) := by
  simp only [MainState.step_input, MainState.fire_player_shot, MainState.fire_player_radar]
  split_ifs <;> simp_all [List.length_append]

/-- Characterisation of the firing phase as it affects the radar layer
counter and the radar-pulse list. -/
lemma step_input_radar_spec (M : MathFns) (s : MainState) :
    ((MainState.step_input M s).radar_layer =
        if s.input.radar ∧ s.player_radar_timeout - seconds < 0 then s.radar_layer + 2
        else s.radar_layer)
    ∧ ((MainState.step_input M s).radar =
        if s.input.radar ∧ s.player_radar_timeout - seconds < 0 then
          s.radar ++ [{ create_radar s.radar_layer with
            pos := (player_handle_input M s.player s.input seconds).pos }]
        else s.radar) := by
  simp only [MainState.step_input, MainState.fire_player_shot, MainState.fire_player_radar]
  split_ifs <;> simp_all





/-- `n` successive firing phases (the input phase of `n` consecutive
frames, restricted to its effect on firing). -/
def stepN (M : MathFns) : ℕ → MainState → MainState
  | 0, s => s
  | n + 1, s => MainState.step_input M (stepN M n s)

/-- With fire held and the cooldown just reset to 0.5 s, none of the next
30 firing phases spawns a shot: the cooldown ticks down by 1/60 per frame
and only becomes strictly negative after more than 30 frames. -/
lemma stepN_no_refire (M : MathFns) (s : MainState) (hf : s.input.fire = true)
    (ht : s.player_shot_timeout = PLAYER_SHOT_TIME) :
    ∀ k : ℕ, k ≤ 30 →
      (stepN M k s).input = s.input
      ∧ (stepN M k s).player_shot_timeout = PLAYER_SHOT_TIME - k * seconds
      ∧ (stepN M k s).shots.length = s.shots.length := by
  intro k
  induction k with
  | zero =>
    intro _
    refine ⟨rfl, by show s.player_shot_timeout = _; rw [ht]; simp, rfl⟩
  | succ k ih =>
    intro hk
    obtain ⟨hi, hpt, hlen⟩ := ih (by omega)
    have hcond : ¬ ((stepN M k s).input.fire = true
        ∧ (stepN M k s).player_shot_timeout - seconds < 0) := by
      rintro ⟨-, hlt⟩
      rw [hpt, PLAYER_SHOT_TIME, seconds] at hlt
      have hk29 : (k : ℚ) ≤ 29 := by exact_mod_cast (by omega : k ≤ 29)
      nlinarith
    have h1 := step_input_fire_spec M (stepN M k s)
    have hstep : stepN M (k + 1) s = MainState.step_input M (stepN M k s) := rfl
    refine ⟨?_, ?_, ?_⟩
    · rw [hstep, h1.1, hi]
    · rw [hstep, h1.2.1, if_neg hcond, hpt]
      push_cast
      ring
    · rw [hstep, h1.2.2, if_neg hcond, hlen]
      simp





/-- C1: in a frame's firing phase a Shot is spawned exactly when fire is
held and the shot cooldown, after this frame's unconditional decrement by
dt = 1/60, is strictly below 0; spawning resets the cooldown to 0.5 s.
Consequently, with fire held continuously after a shot, every further
firing phase within strictly less than 0.5 s of simulated time leaves the
single spawned Shot alone, and once more than 0.5 s has elapsed (at the
31st following frame, 31/60 s >= 0.5 s) a second Shot is spawned. -/
theorem shot_cooldown_gating (M : MathFns) (s : MainState) :
    ((MainState.step_input M s).shots.length =
        s.shots.length + if s.input.fire ∧ s.player_shot_timeout - seconds < 0 then 1 else 0)
    ∧ ((s.input.fire ∧ s.player_shot_timeout - seconds < 0) →
        (MainState.step_input M s).player_shot_timeout = PLAYER_SHOT_TIME)
    ∧ (s.input.fire = true → s.player_shot_timeout - seconds < 0 →
        (∀ k : ℕ, (k : ℚ) / 60 < 1 / 2 →
          (stepN M k (MainState.step_input M s)).shots.length = s.shots.length + 1)
        ∧ ((1 / 2 : ℚ) ≤ 31 / 60
            ∧ (stepN M 31 (MainState.step_input M s)).shots.length = s.shots.length + 2)) := by
  have h1 := step_input_fire_spec M s
  refine ⟨h1.2.2, fun hc => by rw [h1.2.1, if_pos hc], fun hf ht => ?_⟩
  have hcond : s.input.fire = true ∧ s.player_shot_timeout - seconds < 0 := ⟨hf, ht⟩
  have hreset : (MainState.step_input M s).player_shot_timeout = PLAYER_SHOT_TIME := by
    rw [h1.2.1, if_pos hcond]
  have hlen1 : (MainState.step_input M s).shots.length = s.shots.length + 1 := by
    rw [h1.2.2, if_pos hcond]
  have hfire1 : (MainState.step_input M s).input.fire = true := by
    rw [h1.1]
    exact hf
  constructor
  · intro k hk
    have hk30 : k ≤ 30 := by
      by_contra hgt
      push_neg at hgt
      have h31 : (31 : ℚ) ≤ (k : ℚ) := by exact_mod_cast hgt
      rw [div_lt_iff₀ (by norm_num : (0:ℚ) < 60)] at hk
      linarith
    obtain ⟨-, -, hlen⟩ := stepN_no_refire M _ hfire1 hreset k hk30
    rw [hlen, hlen1]
  · refine ⟨by norm_num, ?_⟩
    obtain ⟨hi30, hpt30, hlen30⟩ := stepN_no_refire M _ hfire1 hreset 30 le_rfl
    have hstep : stepN M 31 (MainState.step_input M s)
        = MainState.step_input M (stepN M 30 (MainState.step_input M s)) := rfl
    have h2 := step_input_fire_spec M (stepN M 30 (MainState.step_input M s))
    have hcond2 : (stepN M 30 (MainState.step_input M s)).input.fire = true
        ∧ (stepN M 30 (MainState.step_input M s)).player_shot_timeout - seconds < 0 := by
      constructor
      · rw [hi30]
        exact hfire1
      · rw [hpt30]
        norm_num [PLAYER_SHOT_TIME, seconds]
    rw [hstep, h2.2.2, if_pos hcond2, hlen30, hlen1]





/-- The radar-layer bookkeeping invariant: the next-layer counter is an
even non-negative integer, every live pulse carries an even layer
strictly below the counter, and layers are strictly increasing in spawn
order along the pulse list. -/
def radar_inv (s : MainState) : Prop :=
  Even s.radar_layer ∧ 0 ≤ s.radar_layer
  ∧ (∀ a ∈ s.radar, Even a.layer ∧ a.layer < s.radar_layer)
  ∧ s.radar.Pairwise fun a b => a.layer < b.layer

lemma step_physics_radar (M : MathFns) (s : MainState) :
    (MainState.step_physics M s).radar = s.radar.map fun a => handle_timed_life a seconds := rfl

lemma step_physics_radar_layer (M : MathFns) (s : MainState) :
    (MainState.step_physics M s).radar_layer = s.radar_layer := rfl

lemma handle_collisions_radar (M : MathFns) (s : MainState) :
    (MainState.handle_collisions M s).radar = s.radar := rfl

lemma handle_collisions_radar_layer (M : MathFns) (s : MainState) :
    (MainState.handle_collisions M s).radar_layer = s.radar_layer := rfl

lemma clear_dead_radar (s : MainState) :
    (MainState.clear_dead_stuff s).radar = s.radar.filter fun a => a.life > 0 := rfl

lemma clear_dead_radar_layer (s : MainState) :
    (MainState.clear_dead_stuff s).radar_layer =
      if (s.radar.filter fun a => a.life > 0).length = 0 then 0 else s.radar_layer := rfl

lemma level_end_radar (M : MathFns) (rng : ℕ → ℚ) (s : MainState) :
    (MainState.check_for_level_end M rng s).radar = s.radar
    ∧ (MainState.check_for_level_end M rng s).radar_layer = s.radar_layer := by
  unfold MainState.check_for_level_end
  split <;> exact ⟨rfl, rfl⟩

/-- One-step unfolding of `MainState.update` into its six phases. -/
lemma update_eq (M : MathFns) (rngL rngR : ℕ → ℚ) (s : MainState) :
    MainState.update M rngL rngR s =
      (if (MainState.check_for_level_end M rngL
            (MainState.clear_dead_stuff
              (MainState.handle_collisions M
                (MainState.step_physics M (MainState.step_input M s))))).player.life ≤ 0
      then MainState.reset M rngR
        (MainState.check_for_level_end M rngL
          (MainState.clear_dead_stuff
            (MainState.handle_collisions M
              (MainState.step_physics M (MainState.step_input M s)))))
      else MainState.check_for_level_end M rngL
        (MainState.clear_dead_stuff
          (MainState.handle_collisions M
            (MainState.step_physics M (MainState.step_input M s))))) := rfl

lemma radar_inv_input (M : MathFns) (s : MainState) (h : radar_inv s) :
    radar_inv (MainState.step_input M s) := by
  obtain ⟨he, h0, hall, hpair⟩ := h
  obtain ⟨hl, hr⟩ := step_input_radar_spec M s
  by_cases hc : s.input.radar = true ∧ s.player_radar_timeout - seconds < 0
  · simp only [radar_inv, hl, hr, if_pos hc]
    refine ⟨he.add even_two, by linarith, ?_, ?_⟩
    · intro a ha
      rcases List.mem_append.mp ha with hmem | hmem
      · exact ⟨(hall a hmem).1, by linarith [(hall a hmem).2]⟩
      · rcases List.mem_singleton.mp hmem with rfl
        refine ⟨he, ?_⟩
        show s.radar_layer < s.radar_layer + 2
        linarith
    · rw [List.pairwise_append]
      refine ⟨hpair, List.pairwise_singleton _ _, ?_⟩
      intro a ha b hb
      rcases List.mem_singleton.mp hb with rfl
      exact (hall a ha).2
  · simp only [radar_inv, hl, hr, if_neg hc]
    exact ⟨he, h0, hall, hpair⟩

lemma radar_inv_physics (M : MathFns) (s : MainState) (h : radar_inv s) :
    radar_inv (MainState.step_physics M s) := by
  obtain ⟨he, h0, hall, hpair⟩ := h
  refine ⟨he, h0, ?_, ?_⟩
  · intro a ha
    rw [step_physics_radar] at ha
    obtain ⟨b, hb, rfl⟩ := List.mem_map.mp ha
    exact ⟨(hall b hb).1, (hall b hb).2⟩
  · rw [step_physics_radar]
    exact hpair.map _ (fun a b hab => hab)

lemma radar_inv_collisions (M : MathFns) (s : MainState) (h : radar_inv s) :
    radar_inv (MainState.handle_collisions M s) := by
  simp only [radar_inv, handle_collisions_radar, handle_collisions_radar_layer]
  exact h

lemma radar_inv_clear (s : MainState) (h : radar_inv s) :
    radar_inv (MainState.clear_dead_stuff s) := by
  obtain ⟨he, h0, hall, hpair⟩ := h
  have hsub : (s.radar.filter fun a => a.life > 0).Sublist s.radar := List.filter_sublist s.radar
  simp only [radar_inv, clear_dead_radar, clear_dead_radar_layer]
  by_cases hz : (s.radar.filter fun a => a.life > 0).length = 0
  · rw [if_pos hz]
    rw [List.length_eq_zero] at hz
    rw [hz]
    exact ⟨even_zero, le_refl 0, by simp, List.Pairwise.nil⟩
  · rw [if_neg hz]
    refine ⟨he, h0, ?_, hpair.sublist hsub⟩
    intro a ha
    exact hall a (hsub.mem ha)

lemma radar_inv_level_end (M : MathFns) (rng : ℕ → ℚ) (s : MainState) (h : radar_inv s) :
    radar_inv (MainState.check_for_level_end M rng s) := by
  obtain ⟨hrad, hlay⟩ := level_end_radar M rng s
  simp only [radar_inv, hrad, hlay]
  exact h

lemma radar_inv_reset (M : MathFns) (rng : ℕ → ℚ) (s : MainState) :
    radar_inv (MainState.reset M rng s) :=
  ⟨even_zero, le_refl 0, by simp [MainState.reset], by
    show List.Pairwise _ ([] : List Actor)
    exact List.Pairwise.nil⟩

lemma radar_inv_update (M : MathFns) (rngL rngR : ℕ → ℚ) (s : MainState)
    (h : radar_inv s) : radar_inv (MainState.update M rngL rngR s) := by
  rw [update_eq]
  split
  · exact radar_inv_reset M rngR _
  · exact radar_inv_level_end M rngL _
      (radar_inv_clear _
        (radar_inv_collisions M _
          (radar_inv_physics M _ (radar_inv_input M s h))))





/-- C8: the radar-layer invariant holds in the initial state and is
preserved by every full frame: nextRadarLayer is an even non-negative
integer, every live pulse carries an even layer assigned at spawn,
strictly increasing (by 2 per spawn) in spawn order; when the pulse list
becomes empty at pruning the counter resets to 0; and a radar spawn uses
the current counter as the new pulse's layer and bumps the counter by
exactly 2. -/
theorem radar_layer_invariant (M : MathFns) (rngL rngR rngN : ℕ → ℚ) (s : MainState) :
    radar_inv (MainState.new M rngN)
    ∧ (radar_inv s → radar_inv (MainState.update M rngL rngR s))
    ∧ ((s.radar.filter fun a => a.life > 0) = [] →
        (MainState.clear_dead_stuff s).radar_layer = 0)
    ∧ (s.input.radar = true → s.player_radar_timeout - seconds < 0 →
        (MainState.step_input M s).radar_layer = s.radar_layer + 2
        ∧ ((MainState.step_input M s).radar.map fun a => a.layer)
            = (s.radar.map fun a => a.layer) ++ [s.radar_layer]) := by
  refine ⟨?_, radar_inv_update M rngL rngR s, fun hemp => ?_, fun hr ht => ?_⟩
  · refine ⟨even_zero, le_refl 0, ?_, ?_⟩
    · intro a ha
      exact absurd ha (List.not_mem_nil a)
    · show List.Pairwise _ ([] : List Actor)
      exact List.Pairwise.nil
  · rw [clear_dead_radar_layer, if_pos (by rw [hemp]; rfl)]
  · obtain ⟨hl, hrr⟩ := step_input_radar_spec M s
    have hc : s.input.radar = true ∧ s.player_radar_timeout - seconds < 0 := ⟨hr, ht⟩
    refine ⟨by rw [hl, if_pos hc], ?_⟩
    rw [hrr, if_pos hc, List.map_append]
    rfl

def rng0 : ℕ → ℚ := fun _ => 0

def dead_pulse : Actor := { create_radar 4 with life := 0 }

def c8state : MainState := mk_state create_player [] [dead_pulse] [] []

def radar_input : InputState := { xaxis := 0, yaxis := 0, fire := false, radar := true }

def c8fire : MainState := { mk_state create_player [] [] [] [] with input := radar_input }

theorem radar_layer_invariant_witness :
    radar_inv (MainState.update M0 rng0 rng0 (MainState.new M0 rng0))
    ∧ (MainState.clear_dead_stuff c8state).radar_layer = 0
    ∧ (MainState.step_input M0 c8fire).radar_layer = c8fire.radar_layer + 2 :=
  ⟨(radar_layer_invariant M0 rng0 rng0 rng0 (MainState.new M0 rng0)).2.1
      ((radar_layer_invariant M0 rng0 rng0 rng0 (MainState.new M0 rng0)).1),
    (radar_layer_invariant M0 rng0 rng0 rng0 c8state).2.2.1
      (by simp [c8state, mk_state, dead_pulse]),
    ((radar_layer_invariant M0 rng0 rng0 rng0 c8fire).2.2.2 rfl
      (by norm_num [c8fire, mk_state, seconds])).1⟩





lemma spawn_dist_sq (M : MathFns) (θ d : ℚ) (excl : Vec2)
    (hcirc : M.sinf θ * M.sinf θ + M.cosf θ * M.cosf θ = 1) :
    ((excl + vec_from_angle M θ * d) - excl).len2 = d * d := by
  simp only [Vec2.len2, Vec2.add_x, Vec2.add_y, Vec2.sub_x, Vec2.sub_y, Vec2.smul_x,
    Vec2.smul_y, vec_from_angle]
  linear_combination d * d * hcirc

lemma spawn_band (minR maxR u : ℚ) (h0 : 0 ≤ minR) (hlt : minR < maxR)
    (hu0 : 0 ≤ u) (hu1 : u < 1) :
    minR ≤ u * (maxR - minR) + minR ∧ u * (maxR - minR) + minR < maxR
      ∧ 0 ≤ u * (maxR - minR) + minR := by
  refine ⟨by nlinarith, by nlinarith, by nlinarith⟩

/-- Every rock returned by the spawner sits at an exact radial offset
`d ∈ [minR, maxR)` from the exclusion center. -/
lemma create_rocks_band (M : MathFns) (rng : ℕ → ℚ) (num : ℤ) (excl : Vec2)
    (minR maxR : ℚ) (h0 : 0 ≤ minR) (hlt : minR < maxR)
    (hrng : ∀ n, 0 ≤ rng n ∧ rng n < 1)
    (hcirc : ∀ θ, M.sinf θ * M.sinf θ + M.cosf θ * M.cosf θ = 1) :
    ∀ a ∈ create_rocks M rng num excl minR maxR,
      ∃ d : ℚ, minR ≤ d ∧ d < maxR ∧ 0 ≤ d ∧ (a.pos - excl).len2 = d * d := by
  intro a ha
  unfold create_rocks at ha
  obtain ⟨i, hi, rfl⟩ := List.mem_map.mp ha
  refine ⟨rng (4 * i + 1) * (maxR - minR) + minR, ?_, ?_, ?_, ?_⟩
  · exact (spawn_band minR maxR _ h0 hlt (hrng _).1 (hrng _).2).1
  · exact (spawn_band minR maxR _ h0 hlt (hrng _).1 (hrng _).2).2.1
  · exact (spawn_band minR maxR _ h0 hlt (hrng _).1 (hrng _).2).2.2
  · exact spawn_dist_sq M _ _ excl (hcirc _)

/-- Same for wormholes. -/
lemma create_wormholes_band (M : MathFns) (rng : ℕ → ℚ) (num : ℤ) (excl : Vec2)
    (minR maxR : ℚ) (h0 : 0 ≤ minR) (hlt : minR < maxR)
    (hrng : ∀ n, 0 ≤ rng n ∧ rng n < 1)
    (hcirc : ∀ θ, M.sinf θ * M.sinf θ + M.cosf θ * M.cosf θ = 1) :
    ∀ a ∈ create_wormholes M rng num excl minR maxR,
      ∃ d : ℚ, minR ≤ d ∧ d < maxR ∧ 0 ≤ d ∧ (a.pos - excl).len2 = d * d := by
  intro a ha
  unfold create_wormholes at ha
  obtain ⟨i, hi, rfl⟩ := List.mem_map.mp ha
  refine ⟨rng (4 * i + 1) * (maxR - minR) + minR, ?_, ?_, ?_, ?_⟩
  · exact (spawn_band minR maxR _ h0 hlt (hrng _).1 (hrng _).2).1
  · exact (spawn_band minR maxR _ h0 hlt (hrng _).1 (hrng _).2).2.1
  · exact (spawn_band minR maxR _ h0 hlt (hrng _).1 (hrng _).2).2.2
  · exact spawn_dist_sq M _ _ excl (hcirc _)

lemma create_rocks_length (M : MathFns) (rng : ℕ → ℚ) (num : ℤ) (excl : Vec2)
    (minR maxR : ℚ) :
    (create_rocks M rng num excl minR maxR).length = num.toNat := by
  simp [create_rocks]

lemma create_wormholes_length (M : MathFns) (rng : ℕ → ℚ) (num : ℤ) (excl : Vec2)
    (minR maxR : ℚ) :
    (create_wormholes M rng num excl minR maxR).length = num.toNat := by
  simp [create_wormholes]

/-- C9: under the precondition `maxRadius > minRadius` (and nonnegative
radii, uniform draws in [0,1), and exact unit-circle values for
`sin`/`cos`), every spawned Rock or Wormhole lies at an exact radial
offset `d ∈ [minRadius, maxRadius)` from the exclusion center: its
squared Euclidean distance is exactly `d * d`, the angle-to-vector result
being a unit vector. -/
theorem spawn_containment (M : MathFns) (rng : ℕ → ℚ) (num : ℤ) (excl : Vec2)
    (minR maxR : ℚ) (h0 : 0 ≤ minR) (hlt : minR < maxR)
    (hrng : ∀ n, 0 ≤ rng n ∧ rng n < 1)
    (hcirc : ∀ θ, M.sinf θ * M.sinf θ + M.cosf θ * M.cosf θ = 1) :
    (∀ θ, (vec_from_angle M θ).len2 = 1)
    ∧ (∀ a ∈ create_rocks M rng num excl minR maxR,
        ∃ d : ℚ, minR ≤ d ∧ d < maxR ∧ 0 ≤ d ∧ (a.pos - excl).len2 = d * d)
    ∧ (∀ a ∈ create_wormholes M rng num excl minR maxR,
        ∃ d : ℚ, minR ≤ d ∧ d < maxR ∧ 0 ≤ d ∧ (a.pos - excl).len2 = d * d) :=
  ⟨fun θ => by simp only [vec_from_angle, Vec2.len2]; exact hcirc θ,
    create_rocks_band M rng num excl minR maxR h0 hlt hrng hcirc,
    create_wormholes_band M rng num excl minR maxR h0 hlt hrng hcirc⟩

theorem spawn_containment_witness :
    ((0 : ℚ) ≤ 100 ∧ (100 : ℚ) < 250 ∧ (∀ n, 0 ≤ rng0 n ∧ rng0 n < 1)
      ∧ (∀ θ, M0.sinf θ * M0.sinf θ + M0.cosf θ * M0.cosf θ = 1))
    ∧ (∀ θ, (vec_from_angle M0 θ).len2 = 1) :=
  ⟨⟨by norm_num, by norm_num, fun n => ⟨le_refl 0, by norm_num [rng0]⟩,
      fun θ => by norm_num [M0]⟩,
    (spawn_containment M0 rng0 5 Vec2.zero 100 250 (by norm_num) (by norm_num)
      (fun n => ⟨le_refl 0, by norm_num [rng0]⟩) (fun θ => by norm_num [M0])).1⟩





lemma level_end_player (M : MathFns) (rng : ℕ → ℚ) (s : MainState) :
    (MainState.check_for_level_end M rng s).player = s.player := by
  unfold MainState.check_for_level_end
  split <;> rfl

/-- C3: when the wormhole collection is empty at the level-end check,
score gains 10, level gains 1, exactly one fresh Wormhole and exactly
`level*2+5` fresh Rocks (at the incremented level) exist, all spawned in
the radius band [100, 250) around the player; when a wormhole survives,
the check changes nothing at all. -/
theorem level_end_spec (M : MathFns) (rng : ℕ → ℚ) (s : MainState) :
    (s.wormhole = [] →
      (MainState.check_for_level_end M rng s).score = s.score + 10
      ∧ (MainState.check_for_level_end M rng s).level = s.level + 1
      ∧ (MainState.check_for_level_end M rng s).wormhole.length = 1
      ∧ (MainState.check_for_level_end M rng s).rocks.length
          = ((s.level + 1) * 2 + 5).toNat
      ∧ (0 ≤ s.level →
          ((MainState.check_for_level_end M rng s).rocks.length : ℤ)
            = (s.level + 1) * 2 + 5)
      ∧ ((∀ n, 0 ≤ rng n ∧ rng n < 1) →
          (∀ θ, M.sinf θ * M.sinf θ + M.cosf θ * M.cosf θ = 1) →
          (∀ a ∈ (MainState.check_for_level_end M rng s).rocks,
            ∃ d : ℚ, 100 ≤ d ∧ d < 250 ∧ 0 ≤ d ∧ (a.pos - s.player.pos).len2 = d * d)
          ∧ (∀ a ∈ (MainState.check_for_level_end M rng s).wormhole,
            ∃ d : ℚ, 100 ≤ d ∧ d < 250 ∧ 0 ≤ d ∧ (a.pos - s.player.pos).len2 = d * d)))
    ∧ (s.wormhole ≠ [] → MainState.check_for_level_end M rng s = s) := by
  constructor
  · intro hw
    have hempty : s.wormhole.isEmpty = true := by rw [hw]; rfl
    have heq : MainState.check_for_level_end M rng s =
        { s with
          score := s.score + 10
          level := s.level + 1
          wormhole := create_wormholes M rng 1 s.player.pos 100 250
          rocks := create_rocks M (fun n => rng (4 + n)) ((s.level + 1) * 2 + 5)
            s.player.pos 100 250 } := by
      unfold MainState.check_for_level_end
      rw [if_pos hempty]
    rw [heq]
    refine ⟨rfl, rfl, ?_, ?_, ?_, ?_⟩
    · show (create_wormholes M rng 1 s.player.pos 100 250).length = 1
      rw [create_wormholes_length]
      rfl
    · show (create_rocks M (fun n => rng (4 + n)) ((s.level + 1) * 2 + 5)
          s.player.pos 100 250).length = ((s.level + 1) * 2 + 5).toNat
      rw [create_rocks_length]
    · intro hlev
      show ((create_rocks M (fun n => rng (4 + n)) ((s.level + 1) * 2 + 5)
          s.player.pos 100 250).length : ℤ) = (s.level + 1) * 2 + 5
      rw [create_rocks_length, Int.toNat_of_nonneg (by omega)]
    · intro hrng hcirc
      refine ⟨?_, ?_⟩
      · exact create_rocks_band M _ _ _ 100 250 (by norm_num) (by norm_num)
          (fun n => hrng (4 + n)) hcirc
      · exact create_wormholes_band M _ _ _ 100 250 (by norm_num) (by norm_num)
          hrng hcirc
  · intro hne
    have hempty : ¬ s.wormhole.isEmpty = true := by
      rw [List.isEmpty_iff]
      exact hne
    unfold MainState.check_for_level_end
    rw [if_neg hempty]

def c3state : MainState := mk_state create_player [] [] [] []

theorem level_end_spec_witness :
    c3state.wormhole = []
    ∧ (MainState.check_for_level_end M0 rng0 c3state).score = c3state.score + 10
    ∧ ((MainState.check_for_level_end M0 rng0 c3state).rocks.length : ℤ)
        = (c3state.level + 1) * 2 + 5 :=
  ⟨rfl, ((level_end_spec M0 rng0 c3state).1 rfl).1,
    ((level_end_spec M0 rng0 c3state).1 rfl).2.2.2.2.1 (by norm_num [c3state, mk_state])⟩





lemma step_input_screen (M : MathFns) (s : MainState) :
    (MainState.step_input M s).screen_width = s.screen_width
    ∧ (MainState.step_input M s).screen_height = s.screen_height := by
  simp only [MainState.step_input, MainState.fire_player_shot, MainState.fire_player_radar]
  split_ifs <;> exact ⟨rfl, rfl⟩

lemma level_end_screen (M : MathFns) (rng : ℕ → ℚ) (s : MainState) :
    (MainState.check_for_level_end M rng s).screen_width = s.screen_width
    ∧ (MainState.check_for_level_end M rng s).screen_height = s.screen_height := by
  unfold MainState.check_for_level_end
  split <;> exact ⟨rfl, rfl⟩

/-- With the standard 800×600 window, `reset` rebuilds exactly the state
`new` builds (given the same random draws). -/
lemma reset_eq_new (M : MathFns) (rng : ℕ → ℚ) (s : MainState)
    (hw : s.screen_width = 800) (hh : s.screen_height = 600) :
    MainState.reset M rng s = MainState.new M rng := by
  simp only [MainState.reset, MainState.new, hw, hh]

/-- C4: if the end-of-frame death check sees `player.life ≤ 0`, that same
frame's result is a fully reset GameState, equal to a freshly constructed
one: a new Player, empty Shot and RadarPulse collections, 5 fresh Rocks,
1 fresh Wormhole, level 0, score 0, both cooldown timers 0. -/
theorem death_reset_spec (M : MathFns) (rngL rngR : ℕ → ℚ) (s : MainState)
    (hw : s.screen_width = 800) (hh : s.screen_height = 600)
    (hd : (MainState.check_for_level_end M rngL
        (MainState.clear_dead_stuff
          (MainState.handle_collisions M
            (MainState.step_physics M (MainState.step_input M s))))).player.life ≤ 0) :
    MainState.update M rngL rngR s = MainState.new M rngR
    ∧ (MainState.new M rngR).player = create_player
    ∧ (MainState.new M rngR).shots = []
    ∧ (MainState.new M rngR).radar = []
    ∧ (MainState.new M rngR).rocks.length = 5
    ∧ (MainState.new M rngR).wormhole.length = 1
    ∧ (MainState.new M rngR).level = 0
    ∧ (MainState.new M rngR).score = 0
    ∧ (MainState.new M rngR).player_shot_timeout = 0
    ∧ (MainState.new M rngR).player_radar_timeout = 0 := by
  have hw1 : (MainState.check_for_level_end M rngL
      (MainState.clear_dead_stuff
        (MainState.handle_collisions M
          (MainState.step_physics M (MainState.step_input M s))))).screen_width = 800 := by
    rw [(level_end_screen M rngL _).1]
    show (MainState.step_input M s).screen_width = 800
    rw [(step_input_screen M s).1, hw]
  have hh1 : (MainState.check_for_level_end M rngL
      (MainState.clear_dead_stuff
        (MainState.handle_collisions M
          (MainState.step_physics M (MainState.step_input M s))))).screen_height = 600 := by
    rw [(level_end_screen M rngL _).2]
    show (MainState.step_input M s).screen_height = 600
    rw [(step_input_screen M s).2, hh]
  refine ⟨?_, rfl, rfl, rfl, ?_, ?_, rfl, rfl, rfl, rfl⟩
  · rw [update_eq, if_pos hd]
    exact reset_eq_new M rngR _ hw1 hh1
  · show (create_rocks M rngR 5 create_player.pos 100 250).length = 5
    rw [create_rocks_length]
    rfl
  · show (create_wormholes M (fun n => rngR (20 + n)) 1 create_player.pos 100 250).length = 1
    rw [create_wormholes_length]
    rfl





lemma wrap_actor_position_life (a : Actor) (sx sy : ℚ) :
    (wrap_actor_position a sx sy).life = a.life := rfl

lemma update_actor_position_life (M : MathFns) (a : Actor) (dt : ℚ) :
    (update_actor_position M a dt).life = a.life := rfl

lemma player_handle_input_life (M : MathFns) (a : Actor) (i : InputState) (dt : ℚ) :
    (player_handle_input M a i dt).life = a.life := by
  unfold player_handle_input player_thrust
  split_ifs <;> rfl

lemma step_input_player (M : MathFns) (s : MainState) :
    (MainState.step_input M s).player = player_handle_input M s.player s.input seconds := by
  simp only [MainState.step_input, MainState.fire_player_shot, MainState.fire_player_radar]
  split_ifs <;> rfl

lemma step_input_rocks (M : MathFns) (s : MainState) :
    (MainState.step_input M s).rocks = s.rocks := by
  simp only [MainState.step_input, MainState.fire_player_shot, MainState.fire_player_radar]
  split_ifs <;> rfl

def dead_player : Actor := { create_player with life := 0 }

def c4state : MainState := mk_state dead_player [] [] [] []

theorem death_reset_spec_witness :
    MainState.update M0 rng0 rng0 c4state = MainState.new M0 rng0 :=
  (death_reset_spec M0 rng0 rng0 c4state rfl rfl (by
    rw [level_end_player]
    show (MainState.handle_collisions M0
      (MainState.step_physics M0 (MainState.step_input M0 c4state))).player.life ≤ 0
    have hrocks : (MainState.step_physics M0 (MainState.step_input M0 c4state)).rocks = [] := by
      show ((MainState.step_input M0 c4state).rocks.map fun act =>
        wrap_actor_position (update_actor_position M0 act seconds)
          (MainState.step_input M0 c4state).screen_width
          (MainState.step_input M0 c4state).screen_height) = []
      rw [step_input_rocks]
      rfl
    have hplayer : (MainState.handle_collisions M0
        (MainState.step_physics M0 (MainState.step_input M0 c4state))).player
        = (MainState.step_physics M0 (MainState.step_input M0 c4state)).player := by
      show (collide_rocks M0
        (MainState.step_physics M0 (MainState.step_input M0 c4state)).player
        (MainState.step_physics M0 (MainState.step_input M0 c4state)).rocks
        (MainState.step_physics M0 (MainState.step_input M0 c4state)).shots
        (MainState.step_physics M0 (MainState.step_input M0 c4state)).score).1
        = (MainState.step_physics M0 (MainState.step_input M0 c4state)).player
      rw [hrocks]
      rfl
    rw [hplayer]
    have hlife : (MainState.step_physics M0 (MainState.step_input M0 c4state)).player.life
        = c4state.player.life := by
      show (wrap_actor_position
        (update_actor_position M0 (MainState.step_input M0 c4state).player seconds) _ _).life
        = _
      rw [wrap_actor_position_life, update_actor_position_life, step_input_player,
        player_handle_input_life]
    rw [hlife]
    norm_num [c4state, mk_state, dead_player])).1





def fire_input : InputState := { xaxis := 0, yaxis := 0, fire := true, radar := false }

def c1state : MainState := { mk_state create_player [] [] [] [] with input := fire_input }

theorem shot_cooldown_gating_witness :
    ((c1state.input.fire ∧ c1state.player_shot_timeout - seconds < 0)
      ∧ (MainState.step_input M0 c1state).player_shot_timeout = PLAYER_SHOT_TIME)
    ∧ (stepN M0 31 (MainState.step_input M0 c1state)).shots.length
        = c1state.shots.length + 2 :=
  ⟨⟨⟨rfl, by norm_num [c1state, mk_state, seconds]⟩,
      (shot_cooldown_gating M0 c1state).2.1 ⟨rfl, by norm_num [c1state, mk_state, seconds]⟩⟩,
    ((shot_cooldown_gating M0 c1state).2.2 rfl
      (by norm_num [c1state, mk_state, seconds])).2.2⟩



end SystemsCritical
